import Mathlib

/-!
Verification of the object-creation toolkit in src/index.js: a shared
configuration instance (AppConfig), a participant factory (UserFactory),
a payment-method factory (PaymentFactory), a staged order builder
(OrderBuilder) and a deep-clone utility (clone).

Mutable JS objects are modelled with explicit address heaps (functions
from Nat addresses to records) so that identity, aliasing and
deep-copy independence are expressible.  Pure string/record logic is
translated directly.
-/

set_option maxRecDepth 4000

/-- Pointwise update of a function heap at one address. -/
def updateAt {α : Type} (f : Nat → α) (a : Nat) (v : α) : Nat → α :=
  fun x => if x = a then v else f x

/-! ### Singleton: AppConfig (src/index.js lines 4-27) -/

structure AppConfig where
  currency : String
  tax : Nat
  discount : Nat
deriving DecidableEq, Repr

/-- The default settings written by the constructor (lines 8-10). -/
def defaultConfig : AppConfig := ⟨"INR", 5, 10⟩

/-- The world of allocated AppConfig objects plus the static field
AppConfig._instance (an optional address). -/
structure ConfigWorld where
  heap : Nat → AppConfig
  next : Nat
  inst : Option Nat

/-- Process start: nothing allocated, _instance unset. -/
def emptyConfigWorld : ConfigWorld := ⟨fun _ => defaultConfig, 0, none⟩

def readConfig (w : ConfigWorld) (a : Nat) : AppConfig := w.heap a

/-- new AppConfig() (lines 5-13): if _instance is set the constructor
returns that very object untouched; otherwise it initialises the
default fields and records itself as _instance. -/
def AppConfig.newInstance (w : ConfigWorld) : Nat × ConfigWorld :=
  match w.inst with
  | some a => (a, w)
  | none =>
    (w.next, ⟨updateAt w.heap w.next defaultConfig, w.next + 1, some w.next⟩)

/-- AppConfig.getInstance() (lines 15-18): creates via the constructor
when _instance is unset, then returns _instance. -/
def AppConfig.getInstance (w : ConfigWorld) : Nat × ConfigWorld :=
  match w.inst with
  | some a => (a, w)
  | none =>
    let r := AppConfig.newInstance w
    (r.1, { r.2 with inst := some r.1 })

/-- toggleCurrency() on one record (line 21). -/
def toggleCur (c : AppConfig) : AppConfig :=
  { c with currency := if c.currency = "INR" then "USD" else "INR" }

/-- toggleCurrency() through a reference into the world. -/
def AppConfig.toggleCurrencyAt (w : ConfigWorld) (a : Nat) : ConfigWorld :=
  { w with heap := updateAt w.heap a (toggleCur (w.heap a)) }

/-! ### Factory Method: UserFactory (src/index.js lines 32-63) -/

structure User where
  type : String
  name : String
  permissions : List String
deriving DecidableEq, Repr

/-- JS truthiness default: o || d is d when o is undefined or the
empty string, otherwise the given string. -/
def orDefault (o : Option String) (d : String) : String :=
  match o with
  | some s => if s = "" then d else s
  | none => d

/-- UserFactory.create (lines 55-61): switch on the category tag,
defaulting the name per role, throwing on an unknown tag. -/
def UserFactory.create (t : String) (name : Option String) : Except String User :=
  if t = "Customer" then
    .ok ⟨"Customer", orDefault name "Anon Cust", ["order"]⟩
  else if t = "DeliveryPartner" then
    .ok ⟨"DeliveryPartner", orDefault name "Anon Rider", ["deliver"]⟩
  else if t = "Restaurant" then
    .ok ⟨"Restaurant", orDefault name "Anon Resto", ["menu", "receive_orders"]⟩
  else .error "Unknown type"

/-! ### Abstract Factory: PaymentFactory (src/index.js lines 70-93) -/

/-- The options bag passed to PaymentFactory.create.  The code reads
the keys id, walletId and cardNo; the field cardNumber is carried as
well because a JS object may hold it and the spec names it, letting us
state whether the code ever reads it. -/
structure PayOpts where
  id : Option String := none
  walletId : Option String := none
  cardNo : Option String := none
  cardNumber : Option String := none
deriving DecidableEq, Repr

inductive PaymentMethod where
  | UPI (id : String)
  | Wallet (walletId : String)
  | Card (cardNo : String)
deriving DecidableEq, Repr

/-- String(x).slice(-4): the last four characters, or the whole string
when it is shorter. -/
def lastFour (s : String) : String := s.drop (s.length - 4)

/-- The pay methods of UPI, Wallet and Card (lines 72, 76, 80). -/
def PaymentMethod.pay (m : PaymentMethod) (amount : Nat) : String :=
  match m with
  | .UPI i => "Paid " ++ toString amount ++ " via UPI (" ++ i ++ ")"
  | .Wallet wid => "Paid " ++ toString amount ++ " via Wallet (" ++ wid ++ ")"
  | .Card cn => "Paid " ++ toString amount ++ " via Card (xxxx-" ++ lastFour cn ++ ")"

/-- PaymentFactory.create (lines 84-92). -/
def PaymentFactory.create (family : String) (opts : PayOpts) : Except String PaymentMethod :=
  if family = "UPI" then .ok (.UPI (orDefault opts.id "user@upi"))
  else if family = "Wallet" then .ok (.Wallet (orDefault opts.walletId "WALLET123"))
  else if family = "Card" then .ok (.Card (orDefault opts.cardNo "4242424242424242"))
  else .error "Unknown payment family"

/-- Does pat occur at the start of s (on character lists)? -/
def startsWithL : List Char → List Char → Bool
  | _, [] => true
  | [], _ :: _ => false
  | a :: s, b :: p => a == b && startsWithL s p

/-- Does pat occur anywhere in s (on character lists)? -/
def occursL : List Char → List Char → Bool
  | [], pat => pat.isEmpty
  | c :: t, pat => startsWithL (c :: t) pat || occursL t pat

/-- Substring test used to state receipt-containment claims. -/
def strOccurs (pat s : String) : Bool := occursL s.toList pat.toList

/-! ### Builder: OrderBuilder (src/index.js lines 98-127)

An Order object holds a reference to a mutable toppings array, so the
heap separates order records (ordHeap) from string arrays (arrHeap). -/

structure OrderFields where
  size : Option String
  toppingsRef : Nat
  notes : String
  price : Nat
deriving DecidableEq, Repr

/-- A materialised order: what an observer reads through a reference. -/
structure OrderValue where
  size : Option String
  toppings : List String
  notes : String
  price : Nat
deriving DecidableEq, Repr

structure World where
  ordHeap : Nat → OrderFields
  arrHeap : Nat → List String
  nextOrd : Nat
  nextArr : Nat

def emptyWorld : World := ⟨fun _ => ⟨none, 0, "", 0⟩, fun _ => [], 0, 0⟩

/-- new Order() (lines 98-105): a fresh record with a fresh empty
toppings array; returns the address of the record. -/
def allocOrder (w : World) : Nat × World :=
  (w.nextOrd,
   ⟨updateAt w.ordHeap w.nextOrd ⟨none, w.nextArr, "", 0⟩,
    updateAt w.arrHeap w.nextArr [],
    w.nextOrd + 1, w.nextArr + 1⟩)

/-- Reading the order referenced by address a. -/
def readOrder (w : World) (a : Nat) : OrderValue :=
  ⟨(w.ordHeap a).size, w.arrHeap (w.ordHeap a).toppingsRef,
   (w.ordHeap a).notes, (w.ordHeap a).price⟩

/-- The builder: the world plus this.order, a reference into it. -/
structure BuilderState where
  world : World
  orderRef : Nat

/-- reset() (line 109): this.order = new Order(). -/
def OrderBuilder.reset (b : BuilderState) : BuilderState :=
  ⟨(allocOrder b.world).2, (allocOrder b.world).1⟩

/-- new OrderBuilder() (line 108) on an empty heap: the constructor
calls reset(). -/
def OrderBuilder.mk0 : BuilderState := OrderBuilder.reset ⟨emptyWorld, 0⟩

/-- The size-conditional price increment of setSize (line 113). -/
def sizeBase (s : String) : Nat :=
  if s = "Extra Large" then 300 else if s = "Large" then 200 else 120

/-- setSize (lines 110-115): overwrites size, adds the base price. -/
def OrderBuilder.setSize (b : BuilderState) (s : String) : BuilderState :=
  ⟨{ b.world with
      ordHeap := updateAt b.world.ordHeap b.orderRef
        { b.world.ordHeap b.orderRef with
            size := some s,
            price := (b.world.ordHeap b.orderRef).price + sizeBase s } },
   b.orderRef⟩

/-- addTopping (lines 116-120): pushes onto the toppings array, adds 30. -/
def OrderBuilder.addTopping (b : BuilderState) (t : String) : BuilderState :=
  ⟨{ b.world with
      ordHeap := updateAt b.world.ordHeap b.orderRef
        { b.world.ordHeap b.orderRef with
            price := (b.world.ordHeap b.orderRef).price + 30 },
      arrHeap := updateAt b.world.arrHeap (b.world.ordHeap b.orderRef).toppingsRef
        (b.world.arrHeap (b.world.ordHeap b.orderRef).toppingsRef ++ [t]) },
   b.orderRef⟩

/-- setNotes (line 121): overwrites notes. -/
def OrderBuilder.setNotes (b : BuilderState) (n : String) : BuilderState :=
  ⟨{ b.world with
      ordHeap := updateAt b.world.ordHeap b.orderRef
        { b.world.ordHeap b.orderRef with notes := n } },
   b.orderRef⟩

/-- JSON.parse(JSON.stringify(order)) (line 123) and structuredClone
(line 134): a deep copy with a fresh record and a fresh toppings array
holding equal contents; returns the address of the copy. -/
def deepCopyOrder (w : World) (a : Nat) : Nat × World :=
  (w.nextOrd,
   ⟨updateAt w.ordHeap w.nextOrd
      ⟨(w.ordHeap a).size, w.nextArr, (w.ordHeap a).notes, (w.ordHeap a).price⟩,
    updateAt w.arrHeap w.nextArr (w.arrHeap (w.ordHeap a).toppingsRef),
    w.nextOrd + 1, w.nextArr + 1⟩)

/-- build() (lines 122-126): deep-copies this.order, resets, returns
the address of the finished snapshot. -/
def OrderBuilder.build (b : BuilderState) : Nat × BuilderState :=
  ((deepCopyOrder b.world b.orderRef).1,
   OrderBuilder.reset ⟨(deepCopyOrder b.world b.orderRef).2, b.orderRef⟩)

/-! ### Prototype: clone (src/index.js lines 132-136) -/

/-- clone(obj): structuredClone when available, otherwise a JSON round
trip; both are the same deep copy on plain order records. -/
def clone (w : World) (a : Nat) : Nat × World := deepCopyOrder w a

/-! ### Operation alphabets used to state frame properties -/

/-- One builder call, as fired by the UI host. -/
inductive BOp where
  | doReset
  | doSetSize (s : String)
  | doAddTopping (t : String)
  | doSetNotes (n : String)
  | doBuild
deriving DecidableEq, Repr

def stepB (b : BuilderState) : BOp → BuilderState
  | .doReset => OrderBuilder.reset b
  | .doSetSize s => OrderBuilder.setSize b s
  | .doAddTopping t => OrderBuilder.addTopping b t
  | .doSetNotes n => OrderBuilder.setNotes b n
  | .doBuild => (OrderBuilder.build b).2

def runB (b : BuilderState) : List BOp → BuilderState
  | [] => b
  | op :: ops => runB (stepB b op) ops

/-- One mutation applied through a reference to an order record, as
the demo does to a clone (push a topping, bump the price) plus field
overwrites. -/
inductive MOp where
  | mPushTopping (t : String)
  | mSetSize (s : Option String)
  | mSetNotes (n : String)
  | mSetPrice (p : Nat)
deriving DecidableEq, Repr

def applyM (w : World) (a : Nat) : MOp → World
  | .mPushTopping t =>
    { w with arrHeap := updateAt w.arrHeap (w.ordHeap a).toppingsRef (w.arrHeap (w.ordHeap a).toppingsRef ++ [t]) }
  | .mSetSize s =>
    { w with ordHeap := updateAt w.ordHeap a { w.ordHeap a with size := s } }
  | .mSetNotes n =>
    { w with ordHeap := updateAt w.ordHeap a { w.ordHeap a with notes := n } }
  | .mSetPrice p =>
    { w with ordHeap := updateAt w.ordHeap a { w.ordHeap a with price := p } }

def applyMs (w : World) (a : Nat) : List MOp → World
  | [] => w
  | m :: ms => applyMs (applyM w a m) a ms

/-- Two order references share no mutable substructure. -/
def Separated (w : World) (a b : Nat) : Prop :=
  a ≠ b ∧ (w.ordHeap a).toppingsRef ≠ (w.ordHeap b).toppingsRef

/-- A snapshot at addresses so (record) and sa (its array) is
disjoint from the builder and inside the allocated region. -/
def SnapInv (b : BuilderState) (so sa : Nat) : Prop :=
  so < b.world.nextOrd ∧ sa < b.world.nextArr ∧ so ≠ b.orderRef ∧
  (b.world.ordHeap so).toppingsRef = sa ∧
  sa ≠ (b.world.ordHeap b.orderRef).toppingsRef

/-! ### Helper lemmas -/

theorem updateAt_same {α : Type} (f : Nat → α) (a : Nat) (v : α) :
    updateAt f a v a = v := by
  simp [updateAt]

theorem updateAt_ne {α : Type} (f : Nat → α) (a x : Nat) (v : α) (h : x ≠ a) :
    updateAt f a v x = f x := by
  simp [updateAt, h]

theorem readOrder_setSize (b : BuilderState) (s : String) :
    readOrder (OrderBuilder.setSize b s).world (OrderBuilder.setSize b s).orderRef =
      { readOrder b.world b.orderRef with
          size := some s,
          price := (readOrder b.world b.orderRef).price + sizeBase s } := by
  simp [OrderBuilder.setSize, readOrder, updateAt]

theorem snapInv_stepB (b : BuilderState) (so sa : Nat) (op : BOp)
    (h : SnapInv b so sa) :
    SnapInv (stepB b op) so sa ∧ readOrder (stepB b op).world so = readOrder b.world so := by
  obtain ⟨h1, h2, h3, h4, h5⟩ := h
  cases op with
  | doReset =>
    have hso : so ≠ b.world.nextOrd := by omega
    have hsa : sa ≠ b.world.nextArr := by omega
    constructor
    · refine ⟨by simp [stepB, OrderBuilder.reset, allocOrder]; omega,
        by simp [stepB, OrderBuilder.reset, allocOrder]; omega, ?_, ?_, ?_⟩
      · simp [stepB, OrderBuilder.reset, allocOrder]; omega
      · simpa [stepB, OrderBuilder.reset, allocOrder, updateAt_ne _ _ _ _ hso] using h4
      · simp [stepB, OrderBuilder.reset, allocOrder, updateAt_same]; omega
    · simp [stepB, OrderBuilder.reset, allocOrder, readOrder,
        updateAt_ne _ _ _ _ hso, h4, updateAt_ne _ _ _ _ hsa]
  | doSetSize s =>
    constructor
    · refine ⟨h1, h2, h3, ?_, ?_⟩
      · simpa [stepB, OrderBuilder.setSize, updateAt_ne _ _ _ _ h3] using h4
      · simpa [stepB, OrderBuilder.setSize, updateAt_same] using h5
    · simp [stepB, OrderBuilder.setSize, readOrder, updateAt_ne _ _ _ _ h3, h4]
  | doAddTopping t =>
    constructor
    · refine ⟨h1, h2, h3, ?_, ?_⟩
      · simpa [stepB, OrderBuilder.addTopping, updateAt_ne _ _ _ _ h3] using h4
      · simpa [stepB, OrderBuilder.addTopping, updateAt_same] using h5
    · simp [stepB, OrderBuilder.addTopping, readOrder,
        updateAt_ne _ _ _ _ h3, h4, updateAt_ne _ _ _ _ h5]
  | doSetNotes n =>
    constructor
    · refine ⟨h1, h2, h3, ?_, ?_⟩
      · simpa [stepB, OrderBuilder.setNotes, updateAt_ne _ _ _ _ h3] using h4
      · simpa [stepB, OrderBuilder.setNotes, updateAt_same] using h5
    · simp [stepB, OrderBuilder.setNotes, readOrder, updateAt_ne _ _ _ _ h3, h4]
  | doBuild =>
    have hso : so ≠ b.world.nextOrd := by omega
    have hso1 : so ≠ b.world.nextOrd + 1 := by omega
    have hsa : sa ≠ b.world.nextArr := by omega
    have hsa1 : sa ≠ b.world.nextArr + 1 := by omega
    constructor
    · refine ⟨?_, ?_, ?_, ?_, ?_⟩
      · simp [stepB, OrderBuilder.build, OrderBuilder.reset, allocOrder, deepCopyOrder]; omega
      · simp [stepB, OrderBuilder.build, OrderBuilder.reset, allocOrder, deepCopyOrder]; omega
      · simp [stepB, OrderBuilder.build, OrderBuilder.reset, allocOrder, deepCopyOrder]; omega
      · simpa [stepB, OrderBuilder.build, OrderBuilder.reset, allocOrder, deepCopyOrder,
          updateAt_ne _ _ _ _ hso, updateAt_ne _ _ _ _ hso1] using h4
      · simp [stepB, OrderBuilder.build, OrderBuilder.reset, allocOrder, deepCopyOrder,
          updateAt_same]; omega
    · simp [stepB, OrderBuilder.build, OrderBuilder.reset, allocOrder, deepCopyOrder,
        readOrder, updateAt_ne _ _ _ _ hso, updateAt_ne _ _ _ _ hso1, h4,
        updateAt_ne _ _ _ _ hsa, updateAt_ne _ _ _ _ hsa1]

theorem snapInv_runB (ops : List BOp) (b : BuilderState) (so sa : Nat)
    (h : SnapInv b so sa) :
    readOrder (runB b ops).world so = readOrder b.world so := by
  induction ops generalizing b with
  | nil => rfl
  | cons op ops ih =>
    have hs := snapInv_stepB b so sa op h
    calc readOrder (runB b (op :: ops)).world so
        = readOrder (runB (stepB b op) ops).world so := by simp [runB]
      _ = readOrder (stepB b op).world so := ih _ hs.1
      _ = readOrder b.world so := hs.2

theorem build_facts (b : BuilderState) :
    readOrder (OrderBuilder.build b).2.world (OrderBuilder.build b).1 =
      readOrder b.world b.orderRef ∧
    readOrder (OrderBuilder.build b).2.world (OrderBuilder.build b).2.orderRef =
      OrderValue.mk none [] "" 0 ∧
    SnapInv (OrderBuilder.build b).2 (OrderBuilder.build b).1 b.world.nextArr := by
  have hne : b.world.nextOrd ≠ b.world.nextOrd + 1 := by omega
  have hna : b.world.nextArr ≠ b.world.nextArr + 1 := by omega
  refine ⟨?_, ?_, ?_, ?_, ?_, ?_, ?_⟩
  · simp [OrderBuilder.build, OrderBuilder.reset, allocOrder, deepCopyOrder, readOrder,
      updateAt_ne _ _ _ _ hne, updateAt_same, updateAt_ne _ _ _ _ hna]
  · simp [OrderBuilder.build, OrderBuilder.reset, allocOrder, deepCopyOrder, readOrder,
      updateAt_same]
  · simp [OrderBuilder.build, OrderBuilder.reset, allocOrder, deepCopyOrder]; omega
  · simp [OrderBuilder.build, OrderBuilder.reset, allocOrder, deepCopyOrder]; omega
  · simp [OrderBuilder.build, OrderBuilder.reset, allocOrder, deepCopyOrder]
  · simp [OrderBuilder.build, OrderBuilder.reset, allocOrder, deepCopyOrder,
      updateAt_ne _ _ _ _ hne, updateAt_same]
  · simp [OrderBuilder.build, OrderBuilder.reset, allocOrder, deepCopyOrder,
      updateAt_same]

theorem separated_applyM (w : World) (a c : Nat) (m : MOp) (h : Separated w a c) :
    Separated (applyM w a m) a c ∧ readOrder (applyM w a m) c = readOrder w c := by
  obtain ⟨hne, href⟩ := h
  have hcne : c ≠ a := Ne.symm hne
  cases m with
  | mPushTopping t =>
    refine ⟨⟨hne, href⟩, ?_⟩
    simp [applyM, readOrder, updateAt_ne _ _ _ _ (Ne.symm href)]
  | mSetSize s =>
    constructor
    · exact ⟨hne, by simpa [applyM, updateAt_same, updateAt_ne _ _ _ _ hcne] using href⟩
    · simp [applyM, readOrder, updateAt_ne _ _ _ _ hcne]
  | mSetNotes n =>
    constructor
    · exact ⟨hne, by simpa [applyM, updateAt_same, updateAt_ne _ _ _ _ hcne] using href⟩
    · simp [applyM, readOrder, updateAt_ne _ _ _ _ hcne]
  | mSetPrice p =>
    constructor
    · exact ⟨hne, by simpa [applyM, updateAt_same, updateAt_ne _ _ _ _ hcne] using href⟩
    · simp [applyM, readOrder, updateAt_ne _ _ _ _ hcne]

theorem separated_applyMs (ms : List MOp) (w : World) (a c : Nat) (h : Separated w a c) :
    readOrder (applyMs w a ms) c = readOrder w c := by
  induction ms generalizing w with
  | nil => rfl
  | cons m ms ih =>
    have hs := separated_applyM w a c m h
    calc readOrder (applyMs w a (m :: ms)) c
        = readOrder (applyMs (applyM w a m) a ms) c := by simp [applyMs]
      _ = readOrder (applyM w a m) c := ih _ hs.1
      _ = readOrder w c := hs.2

theorem clone_facts (w : World) (a : Nat)
    (h1 : a < w.nextOrd) (h2 : (w.ordHeap a).toppingsRef < w.nextArr) :
    readOrder (clone w a).2 (clone w a).1 = readOrder w a ∧
    readOrder (clone w a).2 a = readOrder w a ∧
    Separated (clone w a).2 (clone w a).1 a := by
  have hao : a ≠ w.nextOrd := by omega
  have haa : (w.ordHeap a).toppingsRef ≠ w.nextArr := by omega
  refine ⟨?_, ?_, ?_, ?_⟩
  · simp [clone, deepCopyOrder, readOrder, updateAt_same]
  · simp [clone, deepCopyOrder, readOrder, updateAt_ne _ _ _ _ hao,
      updateAt_ne _ _ _ _ haa]
  · simp [clone, deepCopyOrder]; omega
  · simp [clone, deepCopyOrder, updateAt_same, updateAt_ne _ _ _ _ hao]; omega

/-! ### Claim theorems -/

/-- C1: on a fresh assembler, reset().setSize("Large").addTopping("Olives")
.addTopping("Cheese").build() yields the snapshot
{size: Large, toppings: [Olives, Cheese], notes: empty, price: 260}. -/
theorem order_chain_example :
    readOrder
      (OrderBuilder.build
        (OrderBuilder.addTopping
          (OrderBuilder.addTopping
            (OrderBuilder.setSize (OrderBuilder.reset OrderBuilder.mk0) "Large")
            "Olives")
          "Cheese")).2.world
      (OrderBuilder.build
        (OrderBuilder.addTopping
          (OrderBuilder.addTopping
            (OrderBuilder.setSize (OrderBuilder.reset OrderBuilder.mk0) "Large")
            "Olives")
          "Cheese")).1
      = OrderValue.mk (some "Large") ["Olives", "Cheese"] "" 260 := by
  decide

/-- C2: setSize(s) stores s into the size field and adds the base price
to the current price (300 for the Extra Large size string, 200 for
Large, 120 for anything else), and the contribution is additive: a
second setSize call adds its base price on top of the first. -/
theorem setSize_overwrites_size_and_adds_price (b : BuilderState) (s : String) :
    readOrder (OrderBuilder.setSize b s).world (OrderBuilder.setSize b s).orderRef =
      { readOrder b.world b.orderRef with
          size := some s,
          price := (readOrder b.world b.orderRef).price + sizeBase s } ∧
    sizeBase "Extra Large" = 300 ∧
    sizeBase "Large" = 200 ∧
    (∀ s₂, s₂ ≠ "Extra Large" → s₂ ≠ "Large" → sizeBase s₂ = 120) ∧
    (∀ s₂,
      (readOrder (OrderBuilder.setSize (OrderBuilder.setSize b s) s₂).world
        (OrderBuilder.setSize (OrderBuilder.setSize b s) s₂).orderRef).price =
      (readOrder b.world b.orderRef).price + sizeBase s + sizeBase s₂) := by
  refine ⟨readOrder_setSize b s, by decide, by decide, ?_, ?_⟩
  · intro s₂ hx hl
    simp [sizeBase, hx, hl]
  · intro s₂
    rw [readOrder_setSize (OrderBuilder.setSize b s) s₂, readOrder_setSize b s]

/-- Witness for C2 at concrete inputs: a Medium string prices at 120
and two setSize("Large") calls on the fresh builder accumulate 400. -/
theorem setSize_overwrites_size_and_adds_price_witness :
    sizeBase "Medium" = 120 ∧
    (readOrder (OrderBuilder.setSize (OrderBuilder.setSize OrderBuilder.mk0 "Large") "Large").world
      (OrderBuilder.setSize (OrderBuilder.setSize OrderBuilder.mk0 "Large") "Large").orderRef).price = 400 := by
  have h := setSize_overwrites_size_and_adds_price OrderBuilder.mk0 "Large"
  refine ⟨h.2.2.2.1 "Medium" (by decide) (by decide), ?_⟩
  rw [h.2.2.2.2 "Large"]
  decide

/-- C3 (amended): PaymentFactory.create reads id for UPI, walletId for
Wallet and cardNo for Card, defaulting to user@upi, WALLET123 and
4242424242424242 when the key is missing; the Card receipt shows
xxxx- followed by the last four characters of the card number string,
and charging 199 on the default card yields a string containing
xxxx-4242. -/
theorem paymentFactory_recognized_keys :
    (∀ o : PayOpts, PaymentFactory.create "UPI" o =
      .ok (.UPI (orDefault o.id "user@upi"))) ∧
    (∀ o : PayOpts, PaymentFactory.create "Wallet" o =
      .ok (.Wallet (orDefault o.walletId "WALLET123"))) ∧
    (∀ o : PayOpts, PaymentFactory.create "Card" o =
      .ok (.Card (orDefault o.cardNo "4242424242424242"))) ∧
    (∀ i w cn : Option String,
      PaymentFactory.create "Card" ⟨i, w, none, cn⟩ =
        .ok (.Card "4242424242424242")) ∧
    (∀ cn : String, ∀ amt : Nat,
      PaymentMethod.pay (.Card cn) amt =
        "Paid " ++ toString amt ++ " via Card (xxxx-" ++ lastFour cn ++ ")") ∧
    lastFour "4242424242424242" = "4242" ∧
    (PaymentFactory.create "Card" { cardNo := some "4242424242424242" }).map
      (fun m => strOccurs "xxxx-4242" (PaymentMethod.pay m 199)) = .ok true := by
  exact ⟨fun o => rfl, fun o => rfl, fun o => rfl, fun i w cn => rfl,
    fun cn amt => rfl, by decide, by rfl⟩

/-- C3 counterexample: the options key the spec names, cardNumber, is
never read by the code; with cardNumber set to 1111 the factory still
produces the default card, and the receipt masks 4242, not 1111. -/
theorem paymentFactory_cardNumber_key_refuted :
    PaymentFactory.create "Card" ⟨none, none, none, some "1111"⟩ =
      .ok (.Card "4242424242424242") ∧
    PaymentFactory.create "Card" ⟨none, none, none, some "1111"⟩ ≠
      .ok (.Card (orDefault (some "1111") "4242424242424242")) ∧
    strOccurs "xxxx-1111" (PaymentMethod.pay (PaymentMethod.Card "4242424242424242") 199) = false := by
    refine ⟨rfl, ?_, by decide⟩
    simp [PaymentFactory.create, orDefault]

/-- C4: UserFactory.create errors exactly on tags outside Customer,
DeliveryPartner, Restaurant (always with the Unknown type message) and
PaymentFactory.create errors exactly on families outside UPI, Wallet,
Card (always with the Unknown payment family message), while
unrecognized sizes and missing option fields default silently. -/
theorem factory_error_taxonomy :
    (∀ t n, (∃ e, UserFactory.create t n = .error e) ↔
      t ≠ "Customer" ∧ t ≠ "DeliveryPartner" ∧ t ≠ "Restaurant") ∧
    (∀ t n e, UserFactory.create t n = .error e → e = "Unknown type") ∧
    (∀ f o, (∃ e, PaymentFactory.create f o = .error e) ↔
      f ≠ "UPI" ∧ f ≠ "Wallet" ∧ f ≠ "Card") ∧
    (∀ f o e, PaymentFactory.create f o = .error e → e = "Unknown payment family") ∧
    (∀ s, s ≠ "Extra Large" → s ≠ "Large" → sizeBase s = 120) ∧
    PaymentFactory.create "UPI" {} = .ok (.UPI "user@upi") ∧
    PaymentFactory.create "Wallet" {} = .ok (.Wallet "WALLET123") ∧
    PaymentFactory.create "Card" {} = .ok (.Card "4242424242424242") ∧
    UserFactory.create "Customer" none = .ok ⟨"Customer", "Anon Cust", ["order"]⟩ := by
  refine ⟨?_, ?_, ?_, ?_, ?_, rfl, rfl, rfl, rfl⟩
  · intro t n
    constructor
    · rintro ⟨e, he⟩
      refine ⟨?_, ?_, ?_⟩ <;> rintro rfl <;> simp [UserFactory.create] at he
    · rintro ⟨h1, h2, h3⟩
      exact ⟨"Unknown type", by simp [UserFactory.create, h1, h2, h3]⟩
  · intro t n e he
    by_cases h1 : t = "Customer"
    · simp [UserFactory.create, h1] at he
    by_cases h2 : t = "DeliveryPartner"
    · simp [UserFactory.create, h1, h2] at he
    by_cases h3 : t = "Restaurant"
    · simp [UserFactory.create, h1, h2, h3] at he
    · simp [UserFactory.create, h1, h2, h3] at he
      exact he.symm
  · intro f o
    constructor
    · rintro ⟨e, he⟩
      refine ⟨?_, ?_, ?_⟩ <;> rintro rfl <;> simp [PaymentFactory.create] at he
    · rintro ⟨h1, h2, h3⟩
      exact ⟨"Unknown payment family", by simp [PaymentFactory.create, h1, h2, h3]⟩
  · intro f o e he
    by_cases h1 : f = "UPI"
    · simp [PaymentFactory.create, h1] at he
    by_cases h2 : f = "Wallet"
    · simp [PaymentFactory.create, h1, h2] at he
    by_cases h3 : f = "Card"
    · simp [PaymentFactory.create, h1, h2, h3] at he
    · simp [PaymentFactory.create, h1, h2, h3] at he
      exact he.symm
  · intro s hx hl
    simp [sizeBase, hx, hl]

/-- Witness for C4: an Alien participant and a Bogus payment family
are rejected, and a Small size defaults to 120. -/
theorem factory_error_taxonomy_witness :
    (∃ e, UserFactory.create "Alien" none = Except.error e) ∧
    (∃ e, PaymentFactory.create "Bogus" {} = Except.error e) ∧
    sizeBase "Small" = 120 := by
  have h := factory_error_taxonomy
  exact ⟨(h.1 "Alien" none).mpr (by decide),
    (h.2.2.1 "Bogus" {}).mpr (by decide),
    h.2.2.2.2.1 "Small" (by decide) (by decide)⟩

/-- C5: build() emits a snapshot equal to the current order, resets
the assembler to the idle order (no size, no toppings, empty notes,
price 0), and no later sequence of assembler operations changes what
is read through the snapshot reference. -/
theorem build_snapshot_resets_and_is_independent (b : BuilderState) (ops : List BOp) :
    readOrder (OrderBuilder.build b).2.world (OrderBuilder.build b).1 =
      readOrder b.world b.orderRef ∧
    readOrder (OrderBuilder.build b).2.world (OrderBuilder.build b).2.orderRef =
      OrderValue.mk none [] "" 0 ∧
    readOrder (runB (OrderBuilder.build b).2 ops).world (OrderBuilder.build b).1 =
      readOrder b.world b.orderRef := by
  have hb := build_facts b
  refine ⟨hb.1, hb.2.1, ?_⟩
  rw [snapInv_runB ops _ _ _ hb.2.2, hb.1]

/-- C6: clone produces a record reading deeply equal to the source at
distinct addresses with a distinct toppings array, and any sequence of
mutations applied through either reference never changes what is read
through the other. -/
theorem clone_deep_equal_and_independent (w : World) (a : Nat)
    (h1 : a < w.nextOrd) (h2 : (w.ordHeap a).toppingsRef < w.nextArr)
    (ms ns : List MOp) :
    readOrder (clone w a).2 (clone w a).1 = readOrder w a ∧
    (clone w a).1 ≠ a ∧
    ((clone w a).2.ordHeap (clone w a).1).toppingsRef ≠
      ((clone w a).2.ordHeap a).toppingsRef ∧
    readOrder (applyMs (clone w a).2 (clone w a).1 ms) a = readOrder w a ∧
    readOrder (applyMs (clone w a).2 a ns) (clone w a).1 = readOrder w a := by
  have hc := clone_facts w a h1 h2
  have hsep := hc.2.2
  have hsep2 : Separated (clone w a).2 a (clone w a).1 :=
    ⟨Ne.symm hsep.1, Ne.symm hsep.2⟩
  refine ⟨hc.1, hsep.1, hsep.2, ?_, ?_⟩
  · rw [separated_applyMs ms _ _ _ hsep, hc.2.1]
  · rw [separated_applyMs ns _ _ _ hsep2, hc.1]

/-- Witness for C6 on the fresh builder heap: cloning the working
order at address 0, then pushing Extra Cheese and overwriting the
price through the clone, leaves the source order unchanged, and
mutating the source leaves the clone unchanged. -/
theorem clone_deep_equal_and_independent_witness :
    readOrder (clone OrderBuilder.mk0.world 0).2 (clone OrderBuilder.mk0.world 0).1 =
      readOrder OrderBuilder.mk0.world 0 ∧
    readOrder
      (applyMs (clone OrderBuilder.mk0.world 0).2 (clone OrderBuilder.mk0.world 0).1
        [MOp.mPushTopping "Extra Cheese", MOp.mSetPrice 30]) 0 =
      readOrder OrderBuilder.mk0.world 0 ∧
    readOrder
      (applyMs (clone OrderBuilder.mk0.world 0).2 0 [MOp.mPushTopping "Olives"])
      (clone OrderBuilder.mk0.world 0).1 =
      readOrder OrderBuilder.mk0.world 0 := by
  have h := clone_deep_equal_and_independent OrderBuilder.mk0.world 0
    (by decide) (by decide)
    [MOp.mPushTopping "Extra Cheese", MOp.mSetPrice 30] [MOp.mPushTopping "Olives"]
  exact ⟨h.1, h.2.2.2.1, h.2.2.2.2⟩

/-- C7: the first getInstance() call on the fresh process creates the
shared record at address 0 with the defaults INR, 5, 10 and records
it; thereafter both getInstance() and the bare constructor return that
same address without touching the world, so all holders share one
identity. -/
theorem appConfig_singleton :
    (AppConfig.getInstance emptyConfigWorld).1 = 0 ∧
    readConfig (AppConfig.getInstance emptyConfigWorld).2 0 = defaultConfig ∧
    (AppConfig.getInstance emptyConfigWorld).2.inst = some 0 ∧
    (∀ w a, w.inst = some a → AppConfig.getInstance w = (a, w)) ∧
    (∀ w a, w.inst = some a → AppConfig.newInstance w = (a, w)) := by
  refine ⟨rfl, by decide, rfl, ?_, ?_⟩
  · intro w a h
    unfold AppConfig.getInstance
    rw [h]
  · intro w a h
    unfold AppConfig.newInstance
    rw [h]

/-- Witness for C7: a second getInstance() call and a bare constructor
call after the first both return address 0 and leave the world alone. -/
theorem appConfig_singleton_witness :
    AppConfig.getInstance (AppConfig.getInstance emptyConfigWorld).2 =
      (0, (AppConfig.getInstance emptyConfigWorld).2) ∧
    AppConfig.newInstance (AppConfig.getInstance emptyConfigWorld).2 =
      (0, (AppConfig.getInstance emptyConfigWorld).2) := by
  have h := appConfig_singleton
  exact ⟨h.2.2.2.1 _ 0 h.2.2.1, h.2.2.2.2 _ 0 h.2.2.1⟩

/-- C8: participant permissions are fixed by category regardless of
the name, and an omitted name is replaced by the role default. -/
theorem userFactory_permissions_and_default_names :
    (∀ n, (UserFactory.create "Customer" n).map User.permissions = .ok ["order"]) ∧
    (∀ n, (UserFactory.create "DeliveryPartner" n).map User.permissions = .ok ["deliver"]) ∧
    (∀ n, (UserFactory.create "Restaurant" n).map User.permissions =
      .ok ["menu", "receive_orders"]) ∧
    UserFactory.create "Customer" none = .ok ⟨"Customer", "Anon Cust", ["order"]⟩ ∧
    UserFactory.create "DeliveryPartner" none =
      .ok ⟨"DeliveryPartner", "Anon Rider", ["deliver"]⟩ ∧
    UserFactory.create "Restaurant" none =
      .ok ⟨"Restaurant", "Anon Resto", ["menu", "receive_orders"]⟩ := by
  exact ⟨fun n => rfl, fun n => rfl, fun n => rfl, rfl, rfl, rfl⟩

/-- C9: toggleCurrency is an involution on currencies INR and USD: one
application flips to the other value and two applications restore the
record, also when applied through a reference into the world. -/
theorem toggleCurrency_involution (c : AppConfig)
    (h : c.currency = "INR" ∨ c.currency = "USD") :
    toggleCur (toggleCur c) = c ∧
    (c.currency = "INR" → (toggleCur c).currency = "USD") ∧
    (c.currency = "USD" → (toggleCur c).currency = "INR") ∧
    (∀ w a, readConfig w a = c →
      readConfig (AppConfig.toggleCurrencyAt (AppConfig.toggleCurrencyAt w a) a) a = c) := by
  have hinv : toggleCur (toggleCur c) = c := by
    obtain ⟨cur, tax, disc⟩ := c
    rcases h with h | h <;> simp at h <;> subst h <;> simp [toggleCur]
  refine ⟨hinv, ?_, ?_, ?_⟩
  · intro hc; simp [toggleCur, hc]
  · intro hc; simp [toggleCur, hc]
  · intro w a hr
    have : readConfig (AppConfig.toggleCurrencyAt (AppConfig.toggleCurrencyAt w a) a) a =
        toggleCur (toggleCur (w.heap a)) := by
      simp [AppConfig.toggleCurrencyAt, readConfig, updateAt_same]
    rw [this]
    rw [show w.heap a = c from hr, hinv]

/-- Witness for C9 at the default record: INR flips to USD and back. -/
theorem toggleCurrency_involution_witness :
    toggleCur (toggleCur defaultConfig) = defaultConfig ∧
    (toggleCur defaultConfig).currency = "USD" := by
  have h := toggleCurrency_involution defaultConfig (Or.inl rfl)
  exact ⟨h.1, h.2.1 rfl⟩

/-- C10: once _instance exists, a bare constructor call returns it and
leaves the world, hence every field of the shared record, untouched. -/
theorem constructor_preserves_existing_instance (w : ConfigWorld) (a : Nat)
    (h : w.inst = some a) :
    AppConfig.newInstance w = (a, w) ∧
    readConfig (AppConfig.newInstance w).2 a = readConfig w a := by
  have hn : AppConfig.newInstance w = (a, w) := by
    unfold AppConfig.newInstance
    rw [h]
  exact ⟨hn, by rw [hn]⟩

/-- Witness for C10: after getInstance() and toggleCurrency() the
currency is USD, and a bare constructor call still observes USD at the
same address instead of resetting to the defaults. -/
theorem constructor_preserves_existing_instance_witness :
    AppConfig.newInstance
        (AppConfig.toggleCurrencyAt (AppConfig.getInstance emptyConfigWorld).2 0) =
      (0, AppConfig.toggleCurrencyAt (AppConfig.getInstance emptyConfigWorld).2 0) ∧
    (readConfig
        (AppConfig.newInstance
          (AppConfig.toggleCurrencyAt (AppConfig.getInstance emptyConfigWorld).2 0)).2
        0).currency = "USD" := by
  have h := constructor_preserves_existing_instance
    (AppConfig.toggleCurrencyAt (AppConfig.getInstance emptyConfigWorld).2 0) 0 (by rfl)
  refine ⟨h.1, ?_⟩
  rw [h.1]
  decide
